import Mathlib

/-!
# Verification of the gen-mocks generator

A shallow embedding of the two variants of the sourcegraph/gen-mocks tool:

* `gen_mocks.go` — the "suffix" variant: selects interfaces whose name ends in
  `"Service"` and builds mock declarations without synthesizing parameter names;
* the unnamed file (`part_000`) — the "regex/pattern" variant: selects
  interfaces by a regexp on the name and synthesizes names for unnamed
  parameter groups (`synthesizeFieldNamesIfMissing`) before building the
  delegating methods.

The embedding keeps the Go AST shapes the code inspects (field lists with
name groups, function types, interface type specs) and models the I/O pipeline
of `writeMockImplFiles` and the `main` loop as pure trace-producing functions
driven by an oracle describing the outcome of each filesystem operation.
-/

set_option autoImplicit false

namespace GenMocks

/-- One field group of a Go `ast.FieldList`: a (possibly empty) list of names
sharing one type. The type expression is carried opaquely as its source text,
since the generator never inspects parameter/result types. Mirrors `ast.Field`
restricted to what the code touches (`Names`, `Type`). -/
structure PField where
  names : List String
  ptype : String
  deriving DecidableEq, Repr

/-- A Go function type: parameter and result field lists. Mirrors
`ast.FuncType` restricted to `Params`/`Results`. -/
structure FuncT where
  params : List PField
  results : List PField
  deriving DecidableEq, Repr

/-- The type of one interface method-list entry: either a function type
(`*ast.FuncType`, an ordinary method) or some other type expression (e.g. an
embedded interface named by an identifier), carried opaquely. -/
inductive MethType where
  | funcT (t : FuncT)
  | otherT (s : String)
  deriving DecidableEq, Repr

/-- Whether a method-list entry's type is a function type; mirrors the Go type
assertion `methField.Type.(*ast.FuncType)` succeeding. -/
def MethType.isFunc : MethType → Bool
  | .funcT _ => true
  | .otherT _ => false

/-- One entry of an interface's `Methods.List`: a name group plus a type.
Mirrors `ast.Field` as used for interface methods. -/
structure MethodField where
  names : List String
  type : MethType
  deriving DecidableEq, Repr

/-- The first name of a method field. The source accesses `methField.Names[0]`;
for parsed Go interfaces, every entry whose type is a function type has exactly
one name, so the default is never reached on the inputs the tool sees. -/
def MethodField.name0 (mf : MethodField) : String :=
  mf.names.headD ""

/-- The declared type of a `TypeSpec`: an interface type (with its method
list) or some other type, carried opaquely. -/
inductive TSType where
  | interfaceType (methods : List MethodField)
  | otherT (s : String)
  deriving DecidableEq, Repr

/-- Whether a type spec's type is structurally an interface; mirrors the Go
type assertion `tspec.Type.(*ast.InterfaceType)` succeeding. -/
def TSType.isInterface : TSType → Bool
  | .interfaceType _ => true
  | .otherT _ => false

/-- The method list of an interface type spec. The source performs the
unchecked assertion `iface.Type.(*ast.InterfaceType)`; inputs reaching it come
from the selector, which only collects interface types. -/
def TSType.methodsOf : TSType → List MethodField
  | .interfaceType ms => ms
  | .otherT _ => []

/-- A named type declaration spec (`ast.TypeSpec`): its name, its type, and
the base name of the source file it was parsed from (the code recovers the
file via `fset.Position(iface.Pos()).Filename` and takes `filepath.Base`). -/
structure TypeSpec where
  name : String
  type : TSType
  srcFile : String
  deriving DecidableEq, Repr

/-! ## The mock declaration set (the synthesizer's output) -/

/-- The body of a generated delegating method: a single `return` of a call of
`recv.fieldName(args...)`. Mirrors the `ast.ReturnStmt`/`ast.CallExpr`/
`ast.SelectorExpr` tree the code builds. -/
structure RetCallBody where
  recv : String
  fieldName : String
  args : List String
  deriving DecidableEq, Repr

/-- A generated delegating method declaration: pointer receiver
`(recvName *recvStar)`, method name, function type, and the single-return
body. Mirrors the `ast.FuncDecl` the code builds (whose `Recv` type is
`&ast.StarExpr{X: ast.NewIdent(mockTypeName)}`). -/
structure MethDecl where
  recvName : String
  recvStar : String
  name : String
  ftype : FuncT
  body : RetCallBody
  deriving DecidableEq, Repr

/-- The synthesized output for one interface: the mock struct type name, its
struct fields, and its delegating methods, in order. The declaration list the
code emits is the struct type followed by the methods. -/
structure MockDecls where
  typeName : String
  fields : List MethodField
  meths : List MethDecl
  deriving DecidableEq, Repr

/-- A generated output file unit: the target package name plus the mock
declarations (`&ast.File{Name: pkgName, Decls: decls}`). -/
structure MockFile where
  pkgName : String
  decls : MockDecls
  deriving DecidableEq, Repr

/-! ## The synthesizer helpers shared by both variants -/

/-- Embeds `fieldListToIdentList`: one identifier per declared *name*, field
group by field group, in order. A group with no names contributes nothing
(this is what the suffix variant does to unnamed parameters). -/
def fieldListToIdentList : List PField → List String
  | [] => []
  | f :: rest => f.names ++ fieldListToIdentList rest

/-- The recursion behind `synthesizeFieldNamesIfMissing`: Go's
`for i, f := range fl.List` carries the group index `i`, and a group with no
names receives the single name `fmt.Sprintf("v%d", i)`. -/
def synthFrom (i : Nat) : List PField → List PField
  | [] => []
  | f :: rest =>
    (if f.names = [] then { f with names := ["v" ++ toString i] } else f) :: synthFrom (i + 1) rest

/-- Embeds `synthesizeFieldNamesIfMissing` (pattern variant only): every
unnamed field group gets the synthesized name `v<group index>`. -/
def synthesizeFieldNamesIfMissing (fl : List PField) : List PField :=
  synthFrom 0 fl

/-- The flattened parameter types of a field list, one entry per declared
parameter: a group with k ≥ 1 names declares k parameters of its type, a group
with no names declares one. This is what "the same function type" means in Go,
where parameter names do not affect type identity. -/
def flatParamTypes : List PField → List String
  | [] => []
  | f :: rest =>
    (if f.names = [] then [f.ptype] else f.names.map fun _ => f.ptype) ++ flatParamTypes rest

/-! ## The two generation cores -/

/-- Embeds the declaration-building core of `writeMockImplFiles` in
`gen_mocks.go` (the suffix variant): one `"_"`-suffixed field and one
delegating method per function-typed method entry, non-function entries
skipped, no name synthesis. -/
def genMockDeclsSuffix (iface : TypeSpec) : MockDecls :=
  let ms := iface.type.methodsOf
  let mockTypeName := "Mock" ++ iface.name
  { typeName := mockTypeName
    fields := ms.filterMap fun mf =>
      match mf.type with
      | .funcT t => some ⟨[mf.name0 ++ "_"], .funcT t⟩
      | .otherT _ => none
    meths := ms.filterMap fun mf =>
      match mf.type with
      | .funcT t => some
          { recvName := "s"
            recvStar := mockTypeName
            name := mf.name0
            ftype := t
            body := ⟨"s", mf.name0 ++ "_", fieldListToIdentList t.params⟩ }
      | .otherT _ => none }

/-- Embeds the declaration-building core of `writeMockImplFiles` in the
pattern variant. `synthesizeFieldNamesIfMissing` mutates the method's
`*ast.FuncType` in place, and the struct field built in the first loop holds
the *same* node, so in the final (printed) state both the struct field's type
and the delegating method's type carry the synthesized parameter names. -/
def genMockDeclsRegex (iface : TypeSpec) : MockDecls :=
  let ms := iface.type.methodsOf
  let mockTypeName := "Mock" ++ iface.name
  { typeName := mockTypeName
    fields := ms.filterMap fun mf =>
      match mf.type with
      | .funcT t => some ⟨[mf.name0 ++ "_"], .funcT ⟨synthesizeFieldNamesIfMissing t.params, t.results⟩⟩
      | .otherT _ => none
    meths := ms.filterMap fun mf =>
      match mf.type with
      | .funcT t =>
        let ps := synthesizeFieldNamesIfMissing t.params
        some
          { recvName := "s"
            recvStar := mockTypeName
            name := mf.name0
            ftype := ⟨ps, t.results⟩
            body := ⟨"s", mf.name0 ++ "_", fieldListToIdentList ps⟩ }
      | .otherT _ => none }

/-! ## The interface selector (`readIfaces` / `readServiceInterfaces`)

Both variants run `ast.Walk` with a visitor that, on a `*ast.GenDecl`,
collects the matching interface type specs when the token is `type` and stops
descending (returns `false`); on every other node kind it returns `true` and
the walk descends into the node's children — in particular into function
bodies, whose `DeclStmt`s wrap nested `GenDecl`s. -/

/-- A node of the walked syntax tree, restricted to the shapes the visitor
distinguishes: a `GenDecl` (with whether its token is `type`, and its type
specs), a function declaration with the nodes of its body, and any other node
with its children. -/
inductive Node where
  | genDecl (isTypeTok : Bool) (specs : List TypeSpec)
  | funcDecl (body : List Node)
  | otherNode (children : List Node)

mutual

/-- The visitor of `readIfaces`/`readServiceInterfaces` as a collection
function: on a type `GenDecl`, keep the specs whose type is an interface and
whose name matches the selection predicate, and do not descend; on any other
node, descend into the children. -/
def collectIfaces (pat : String → Bool) : Node → List TypeSpec
  | Node.genDecl isTypeTok specs =>
    if isTypeTok then specs.filter (fun ts => ts.type.isInterface && pat ts.name) else []
  | Node.funcDecl body => collectIfacesList pat body
  | Node.otherNode children => collectIfacesList pat children

/-- Collection over a list of sibling nodes, in order. -/
def collectIfacesList (pat : String → Bool) : List Node → List TypeSpec
  | [] => []
  | n :: rest => collectIfaces pat n ++ collectIfacesList pat rest

end

/-- Embeds `readIfaces` (pattern variant) over a parsed package given as its
files' top-level node lists; `readServiceInterfaces` (suffix variant) is the
same walk with the predicate fixed to a `"Service"` suffix test. -/
def readIfacesM (pat : String → Bool) : List (List Node) → List TypeSpec
  | [] => []
  | file :: rest => collectIfacesList pat file ++ readIfacesM pat rest

/-! ## The output pipeline of `writeMockImplFiles`

The per-interface I/O of `writeMockImplFiles` is modelled as a trace of
events, with an oracle fixing the outcome of each fallible filesystem
operation. The `log` package writes to standard error (the code only calls
`log.SetFlags(0)`, which strips the timestamp but keeps the default output
stream), so `logLine` events model stderr output, distinct from
`stdoutWrite`. -/

/-- The outcome oracle for the filesystem operations of one
`writeMockImplFiles` call, indexed by interface position: `MkdirAll`,
`os.Create`, `printer.Fprint`, `imports.Process`, and the final `w.Write`
(whose result the code ignores). -/
structure FsOracle where
  mkdirOk : Bool
  createOk : Nat → Bool
  printOk : Nat → Bool
  importsOk : Nat → Bool
  writeOk : Nat → Bool

/-- The oracle on which every filesystem operation succeeds. -/
def allOk : FsOracle :=
  { mkdirOk := true
    createOk := fun _ => true
    printOk := fun _ => true
    importsOk := fun _ => true
    writeOk := fun _ => true }

/-- One observable event of a run. `logLine` and `warnNoMatch` and `fatal` go
to the log stream (standard error); `stdoutWrite` goes to standard output;
`mkdir`, `fileCreate` and `fileWrite` touch the filesystem. The `ok` flags
record the oracle's outcome for the operation. -/
inductive Event where
  | mkdir (dir : String) (ok : Bool)
  | logLine (s : String)
  | warnNoMatch (patStr : String)
  | fileCreate (path : String) (ok : Bool)
  | stdoutWrite (f : MockFile) (ok : Bool)
  | fileWrite (path : String) (f : MockFile) (ok : Bool)
  | fatal
  deriving DecidableEq, Repr

/-- Whether an event touches a file other than the output directory. -/
def Event.isFileEvent : Event → Bool
  | .fileCreate _ _ => true
  | .fileWrite _ _ _ => true
  | _ => false

/-- Whether an event is a write to standard output. -/
def Event.isStdout : Event → Bool
  | .stdoutWrite _ _ => true
  | _ => false

/-- Whether an event is a line on the log stream (standard error). -/
def Event.isLog : Event → Bool
  | .logLine _ => true
  | .warnNoMatch _ => true
  | .fatal => true
  | _ => false

/-- Go's `strings.TrimSuffix`: drop the suffix when present, else identity,
stated over the character lists of the strings. -/
def goTrimSuffix (s suffixStr : String) : String :=
  if suffixStr.length ≤ s.length
      && s.data.drop (s.length - suffixStr.length) == suffixStr.data
  then ⟨s.data.take (s.length - suffixStr.length)⟩
  else s

/-- The derived output path of one interface's mock file:
`filepath.Join(outDir, strings.TrimSuffix(filepath.Base(src), ".go") + "_mock.go")`,
with `filepath.Join` modelled as `"/"`-joining (adequate for a non-empty
directory without a trailing separator) and `srcFile` already the base name. -/
def mockOutPath (outDir srcFile : String) : String :=
  outDir ++ "/" ++ (goTrimSuffix srcFile ".go" ++ "_mock.go")

/-- The per-interface loop of `writeMockImplFiles` (pattern variant; the
suffix variant's loop is identical in every respect modelled here). For each
interface, in order: log the `# <path>` line; in write mode `os.Create` the
file (a failure returns the error); render (`printer.Fprint`) and run
`imports.Process`, each failure returning the error; finally `w.Write` the
file unit to the created file or to standard output — the source discards
this call's result, so the loop continues and the returned flag does not
depend on the write outcome. Returns the event trace and whether the call
returned without error. -/
def wmifLoop (wf : Bool) (o : FsOracle) (outDir outPkg : String) :
    Nat → List TypeSpec → List Event × Bool
  | _, [] => ([], true)
  | i, iface :: rest =>
    let path := mockOutPath outDir iface.srcFile
    let logEv := Event.logLine ("# " ++ path)
    if wf && !o.createOk i then ([logEv, Event.fileCreate path false], false)
    else
      let createEvs := if wf then [Event.fileCreate path true] else []
      if !o.printOk i then (logEv :: createEvs, false)
      else if !o.importsOk i then (logEv :: createEvs, false)
      else
        let unit : MockFile := ⟨outPkg, genMockDeclsRegex iface⟩
        let wEv := if wf then Event.fileWrite path unit (o.writeOk i)
                   else Event.stdoutWrite unit (o.writeOk i)
        let res := wmifLoop wf o outDir outPkg (i + 1) rest
        (logEv :: createEvs ++ wEv :: res.1, res.2)

/-- Embeds `writeMockImplFiles`: `os.MkdirAll(outDir, 0700)` runs first,
unconditionally, in both modes; a failure there returns the error before any
interface is processed; otherwise the per-interface loop runs. -/
def writeMockImplFilesM (wf : Bool) (o : FsOracle) (outDir outPkg : String)
    (ifaces : List TypeSpec) : List Event × Bool :=
  if !o.mkdirOk then ([Event.mkdir outDir false], false)
  else
    let res := wmifLoop wf o outDir outPkg 0 ifaces
    (Event.mkdir outDir true :: res.1, res.2)

/-! ## The `main` loop of the pattern variant -/

/-- A parsed package: its name and its files' top-level nodes. -/
structure PkgM where
  name : String
  files : List (List Node)

/-- Embeds the package loop of the pattern variant's `main`: for each package,
select interfaces; when none match, log the warning and continue with the
remaining packages; otherwise run `writeMockImplFiles` and, on error,
`log.Fatal` ends the run. The oracle is indexed by the package's position in
the scanned list. -/
def mainLoopM (pat : String → Bool) (patStr : String) (wf : Bool)
    (oracles : Nat → FsOracle) (outDir : String) :
    Nat → List PkgM → List Event
  | _, [] => []
  | k, pkg :: rest =>
    let ifaces := readIfacesM pat pkg.files
    if ifaces.isEmpty then
      Event.warnNoMatch patStr :: mainLoopM pat patStr wf oracles outDir (k + 1) rest
    else
      let res := writeMockImplFilesM wf (oracles k) outDir pkg.name ifaces
      if res.2 then res.1 ++ mainLoopM pat patStr wf oracles outDir (k + 1) rest
      else res.1 ++ [Event.fatal]

/-! ## Derived descriptions and concrete instances used in the statements -/

/-- The events a preview (no `-w`) run emits per interface when rendering
and import processing succeed: the `# <path>` log line followed by the stdout
write of the file unit, interface by interface. -/
def previewEvents (o : FsOracle) (outDir outPkg : String) :
    Nat → List TypeSpec → List Event
  | _, [] => []
  | i, iface :: rest =>
    Event.logLine ("# " ++ mockOutPath outDir iface.srcFile)
      :: Event.stdoutWrite ⟨outPkg, genMockDeclsRegex iface⟩ (o.writeOk i)
      :: previewEvents o outDir outPkg (i + 1) rest

/-- The `Fetcher` interface of the spec's first end-to-end scenario:
one method `Get(id string) (string, error)`. -/
def fetcherIface : TypeSpec :=
  ⟨"Fetcher",
   .interfaceType
     [⟨["Get"], .funcT ⟨[⟨["id"], "string"⟩], [⟨[], "string"⟩, ⟨[], "error"⟩]⟩⟩],
   "fetcher.go"⟩

/-- The `Checker` interface of the spec's second end-to-end scenario:
one method `Check(bool) error` with an unnamed parameter. -/
def checkerIface : TypeSpec :=
  ⟨"Checker",
   .interfaceType [⟨["Check"], .funcT ⟨[⟨[], "bool"⟩], [⟨[], "error"⟩]⟩⟩],
   "check.go"⟩

/-- An interface whose single method-list entry is not a function type
(an embedded interface `Reader`). -/
def embIface : TypeSpec :=
  ⟨"EmbService", .interfaceType [⟨[], .otherT "Reader"⟩], "emb.go"⟩

/-- A second simple all-named interface, used for multi-interface runs. -/
def pusherIface : TypeSpec :=
  ⟨"Pusher",
   .interfaceType [⟨["Push"], .funcT ⟨[⟨["x"], "int"⟩], [⟨[], "error"⟩]⟩⟩],
   "push.go"⟩

/-- An oracle on which every operation succeeds except the byte write of the
first output file. -/
def oWriteFail : FsOracle :=
  { allOk with writeOk := fun i => decide (i ≠ 0) }

/-- A package containing no interface matching the `"Service"`-suffix
predicate (its one interface is named `Foo`). -/
def pkgNoMatch : PkgM :=
  ⟨"p1", [[Node.genDecl true [⟨"Foo", .interfaceType [], "a.go"⟩]]]⟩

/-- A package with one matching interface, `BarService`. -/
def pkgWithMatch : PkgM :=
  ⟨"p2",
   [[Node.genDecl true
      [⟨"BarService",
        .interfaceType [⟨["Get"], .funcT ⟨[⟨["id"], "string"⟩], [⟨[], "error"⟩]⟩⟩],
        "b.go"⟩]]]⟩

/-- The `"Service"`-suffix selection predicate of the suffix variant (also the
compiled form of the pattern variant's default pattern `.+Service` on
non-empty names), stated over the strings' character lists like
`strings.HasSuffix`. -/
def patService (s : String) : Bool :=
  "Service".length ≤ s.length
    && s.data.drop (s.length - "Service".length) == "Service".data

/-- Nesting a type `GenDecl` inside `d` levels of function bodies. -/
def nestFunc : Nat → List TypeSpec → Node
  | 0, specs => Node.genDecl true specs
  | d + 1, specs => Node.funcDecl [nestFunc d specs]

/-- The function type held by a method entry (statement helper; meaningful
only when the entry's type is a function type). -/
def MethType.funcOf : MethType → FuncT
  | .funcT t => t
  | .otherT _ => ⟨[], []⟩

/-- The struct field the suffix variant derives from one function-typed
method entry (statement helper, used to describe the generator's output). -/
def suffixFieldOf (mf : MethodField) : MethodField :=
  ⟨[mf.name0 ++ "_"], mf.type⟩

/-- The delegating method the suffix variant derives from one function-typed
method entry (statement helper). -/
def suffixMethOf (mockName : String) (mf : MethodField) : MethDecl :=
  { recvName := "s"
    recvStar := mockName
    name := mf.name0
    ftype := mf.type.funcOf
    body := ⟨"s", mf.name0 ++ "_", fieldListToIdentList mf.type.funcOf.params⟩ }

/-- The struct field the pattern variant derives from one function-typed
method entry, carrying the synthesized parameter names (statement helper). -/
def regexFieldOf (mf : MethodField) : MethodField :=
  ⟨[mf.name0 ++ "_"],
   .funcT ⟨synthesizeFieldNamesIfMissing mf.type.funcOf.params, mf.type.funcOf.results⟩⟩

/-- The delegating method the pattern variant derives from one function-typed
method entry (statement helper). -/
def regexMethOf (mockName : String) (mf : MethodField) : MethDecl :=
  { recvName := "s"
    recvStar := mockName
    name := mf.name0
    ftype := ⟨synthesizeFieldNamesIfMissing mf.type.funcOf.params, mf.type.funcOf.results⟩
    body := ⟨"s", mf.name0 ++ "_",
             fieldListToIdentList (synthesizeFieldNamesIfMissing mf.type.funcOf.params)⟩ }

/-! ## Helper lemmas -/

theorem filterMap_eq_map_of_some {α β : Type} {f : α → Option β} {g : α → β}
    {l : List α} (h : ∀ a ∈ l, f a = some (g a)) : l.filterMap f = l.map g := by
  induction l with
  | nil => rfl
  | cons a l ih =>
    rw [List.filterMap_cons, h a (List.mem_cons_self a l),
      List.map_cons, ih (fun b hb => h b (List.mem_cons_of_mem a hb))]

theorem filterMap_congr_mem {α β : Type} {f g : α → Option β} {l : List α}
    (h : ∀ a ∈ l, f a = g a) : l.filterMap f = l.filterMap g := by
  induction l with
  | nil => rfl
  | cons a l ih =>
    rw [List.filterMap_cons, List.filterMap_cons, h a (List.mem_cons_self a l),
      ih (fun b hb => h b (List.mem_cons_of_mem a hb))]

theorem length_filterMap_eq_length_filter {α β : Type} (f : α → Option β)
    (p : α → Bool) (h : ∀ a, (f a).isSome = p a) (l : List α) :
    (l.filterMap f).length = (l.filter p).length := by
  induction l with
  | nil => rfl
  | cons a l ih =>
    rw [List.filterMap_cons, List.filter_cons]
    cases hfa : f a with
    | none =>
      have hp : p a = false := by rw [← h a, hfa]; rfl
      simp [hp, ih]
    | some b =>
      have hp : p a = true := by rw [← h a, hfa]; rfl
      simp [hp, ih]

theorem flatParamTypes_synthFrom (k : Nat) (ps : List PField) :
    flatParamTypes (synthFrom k ps) = flatParamTypes ps := by
  induction ps generalizing k with
  | nil => rfl
  | cons f rest ih =>
    by_cases hf : f.names = []
    · simp [synthFrom, flatParamTypes, hf, ih]
    · simp [synthFrom, flatParamTypes, hf, ih]

theorem length_identList_synthFrom (k : Nat) (ps : List PField) :
    (fieldListToIdentList (synthFrom k ps)).length = (flatParamTypes ps).length := by
  induction ps generalizing k with
  | nil => rfl
  | cons f rest ih =>
    by_cases hf : f.names = []
    · simp [synthFrom, fieldListToIdentList, flatParamTypes, hf, ih]
    · simp [synthFrom, fieldListToIdentList, flatParamTypes, hf, ih]

theorem mem_identList_of_getElem {ps : List PField} {j : Nat} {g : PField}
    (hj : ps[j]? = some g) {n : String} (hn : n ∈ g.names) :
    n ∈ fieldListToIdentList ps := by
  induction ps generalizing j with
  | nil => simp at hj
  | cons f rest ih =>
    cases j with
    | zero =>
      simp only [List.getElem?_cons_zero, Option.some_inj] at hj
      subst hj
      exact List.mem_append_left _ hn
    | succ j =>
      simp only [List.getElem?_cons_succ] at hj
      exact List.mem_append_right _ (ih hj)

theorem synthFrom_getElem (k : Nat) (ps : List PField) (j : Nat) (g : PField)
    (hj : ps[j]? = some g) (hg : g.names = []) :
    (synthFrom k ps)[j]? = some ⟨["v" ++ toString (k + j)], g.ptype⟩ := by
  induction ps generalizing k j with
  | nil => simp at hj
  | cons f rest ih =>
    cases j with
    | zero =>
      simp only [List.getElem?_cons_zero, Option.some_inj] at hj
      subst hj
      simp [synthFrom, hg]
    | succ j =>
      simp only [List.getElem?_cons_succ] at hj
      have := ih (k + 1) j hj
      simpa [synthFrom, Nat.add_assoc, Nat.add_comm 1 j] using this

theorem synthFrom_id_of_named (k : Nat) (ps : List PField)
    (h : ∀ g ∈ ps, g.names ≠ []) : synthFrom k ps = ps := by
  induction ps generalizing k with
  | nil => rfl
  | cons f rest ih =>
    have hf : f.names ≠ [] := h f (List.mem_cons_self f rest)
    simp only [synthFrom, if_neg hf]
    rw [ih (k + 1) (fun g hg => h g (List.mem_cons_of_mem f hg))]

theorem wmifLoop_allOk_ok (wf : Bool) (outDir outPkg : String) (k : Nat)
    (l : List TypeSpec) : (wmifLoop wf allOk outDir outPkg k l).2 = true := by
  induction l generalizing k with
  | nil => rfl
  | cons iface rest ih => simpa [wmifLoop, allOk] using ih (k + 1)

theorem wmifLoop_ok_of_success (o : FsOracle) (outDir outPkg : String)
    (l : List TypeSpec) (k : Nat)
    (h : (wmifLoop true o outDir outPkg k l).2 = true) :
    ∀ j, j < l.length →
      o.createOk (k + j) = true ∧ o.printOk (k + j) = true ∧ o.importsOk (k + j) = true := by
  induction l generalizing k with
  | nil => intro j hj; simp at hj
  | cons iface rest ih =>
    intro j hj
    by_cases hc : o.createOk k = true
    · by_cases hp : o.printOk k = true
      · by_cases hq : o.importsOk k = true
        · have hrest : (wmifLoop true o outDir outPkg (k + 1) rest).2 = true := by
            simpa [wmifLoop, hc, hp, hq] using h
          cases j with
          | zero => exact ⟨hc, hp, hq⟩
          | succ j =>
            have := ih (k + 1) hrest j (Nat.lt_of_succ_lt_succ hj)
            simpa [Nat.add_assoc, Nat.add_comm 1 j] using this
        · exfalso
          have hq' : o.importsOk k = false := by simpa using hq
          simp [wmifLoop, hc, hp, hq'] at h
      · exfalso
        have hp' : o.printOk k = false := by simpa using hp
        simp [wmifLoop, hc, hp'] at h
    · exfalso
      have hc' : o.createOk k = false := by simpa using hc
      simp [wmifLoop, hc'] at h

theorem wmifLoop_preview (o : FsOracle) (outDir outPkg : String)
    (hp : ∀ i, o.printOk i = true) (hq : ∀ i, o.importsOk i = true)
    (k : Nat) (l : List TypeSpec) :
    wmifLoop false o outDir outPkg k l = (previewEvents o outDir outPkg k l, true) := by
  induction l generalizing k with
  | nil => rfl
  | cons iface rest ih => simp [wmifLoop, previewEvents, hp, hq, ih]

theorem wmifLoop_preview_no_file_events (o : FsOracle) (outDir outPkg : String)
    (k : Nat) (l : List TypeSpec) :
    (wmifLoop false o outDir outPkg k l).1.filter Event.isFileEvent = [] := by
  induction l generalizing k with
  | nil => rfl
  | cons iface rest ih =>
    by_cases hp : o.printOk k = true
    · by_cases hq : o.importsOk k = true
      · simp [wmifLoop, hp, hq, Event.isFileEvent, ih]
      · have hq' : o.importsOk k = false := by simpa using hq
        simp [wmifLoop, hp, hq', Event.isFileEvent]
    · have hp' : o.printOk k = false := by simpa using hp
      simp [wmifLoop, hp', Event.isFileEvent]

theorem fields_suffix_map (iface : TypeSpec)
    (hall : ∀ mf ∈ iface.type.methodsOf, mf.type.isFunc = true) :
    (genMockDeclsSuffix iface).fields = iface.type.methodsOf.map suffixFieldOf := by
  apply filterMap_eq_map_of_some
  intro a ha
  have hfa := hall a ha
  cases hat : a.type with
  | funcT t => simp [suffixFieldOf, hat]
  | otherT s => rw [hat] at hfa; simp [MethType.isFunc] at hfa

theorem meths_suffix_map (iface : TypeSpec)
    (hall : ∀ mf ∈ iface.type.methodsOf, mf.type.isFunc = true) :
    (genMockDeclsSuffix iface).meths
      = iface.type.methodsOf.map (suffixMethOf ("Mock" ++ iface.name)) := by
  apply filterMap_eq_map_of_some
  intro a ha
  have hfa := hall a ha
  cases hat : a.type with
  | funcT t => simp [suffixMethOf, MethType.funcOf, hat]
  | otherT s => rw [hat] at hfa; simp [MethType.isFunc] at hfa

theorem fields_regex_map (iface : TypeSpec)
    (hall : ∀ mf ∈ iface.type.methodsOf, mf.type.isFunc = true) :
    (genMockDeclsRegex iface).fields = iface.type.methodsOf.map regexFieldOf := by
  apply filterMap_eq_map_of_some
  intro a ha
  have hfa := hall a ha
  cases hat : a.type with
  | funcT t => simp [regexFieldOf, MethType.funcOf, hat]
  | otherT s => rw [hat] at hfa; simp [MethType.isFunc] at hfa

theorem meths_regex_map (iface : TypeSpec)
    (hall : ∀ mf ∈ iface.type.methodsOf, mf.type.isFunc = true) :
    (genMockDeclsRegex iface).meths
      = iface.type.methodsOf.map (regexMethOf ("Mock" ++ iface.name)) := by
  apply filterMap_eq_map_of_some
  intro a ha
  have hfa := hall a ha
  cases hat : a.type with
  | funcT t => simp [regexMethOf, MethType.funcOf, hat]
  | otherT s => rw [hat] at hfa; simp [MethType.isFunc] at hfa

theorem collectIfaces_nestFunc (pat : String → Bool) (d : Nat) (specs : List TypeSpec) :
    collectIfaces pat (nestFunc d specs)
      = specs.filter (fun ts => ts.type.isInterface && pat ts.name) := by
  induction d with
  | zero => simp [nestFunc, collectIfaces]
  | succ d ih => simp [nestFunc, collectIfaces, collectIfacesList, ih]

/-! ## The claims -/

/-- C1: for a selected interface whose method-list entries are all function
types, both generation cores produce exactly as many struct fields and as many
delegating methods as the interface has methods, in declaration order; the
i-th field's name is the i-th method's name with `"_"` appended; the i-th
field's type is that method's function type — exactly so in the suffix
variant, and with the synthesized parameter names (the same function type in
Go's sense: identical flattened parameter types and identical results) in the
pattern variant. -/
theorem c1_mock_shape (iface : TypeSpec) (i : Nat) (mf : MethodField) (t : FuncT)
    (hall : ∀ mf' ∈ iface.type.methodsOf, mf'.type.isFunc = true)
    (hi : (iface.type.methodsOf)[i]? = some mf)
    (ht : mf.type = .funcT t) :
    (genMockDeclsSuffix iface).fields.length = iface.type.methodsOf.length
    ∧ (genMockDeclsSuffix iface).meths.length = iface.type.methodsOf.length
    ∧ (genMockDeclsRegex iface).fields.length = iface.type.methodsOf.length
    ∧ (genMockDeclsRegex iface).meths.length = iface.type.methodsOf.length
    ∧ (genMockDeclsSuffix iface).fields[i]? = some ⟨[mf.name0 ++ "_"], .funcT t⟩
    ∧ ((genMockDeclsSuffix iface).meths[i]?).map MethDecl.name = some mf.name0
    ∧ (genMockDeclsRegex iface).fields[i]?
        = some ⟨[mf.name0 ++ "_"],
                .funcT ⟨synthesizeFieldNamesIfMissing t.params, t.results⟩⟩
    ∧ ((genMockDeclsRegex iface).meths[i]?).map MethDecl.name = some mf.name0
    ∧ flatParamTypes (synthesizeFieldNamesIfMissing t.params) = flatParamTypes t.params := by
  have hfs := fields_suffix_map iface hall
  have hms := meths_suffix_map iface hall
  have hfr := fields_regex_map iface hall
  have hmr := meths_regex_map iface hall
  refine ⟨?_, ?_, ?_, ?_, ?_, ?_, ?_, ?_, ?_⟩
  · rw [hfs, List.length_map]
  · rw [hms, List.length_map]
  · rw [hfr, List.length_map]
  · rw [hmr, List.length_map]
  · rw [hfs, List.getElem?_map, hi]
    simp [suffixFieldOf, ht]
  · rw [hms, List.getElem?_map, hi]
    simp [suffixMethOf]
  · rw [hfr, List.getElem?_map, hi]
    simp [regexFieldOf, MethType.funcOf, ht]
  · rw [hmr, List.getElem?_map, hi]
    simp [regexMethOf]
  · exact flatParamTypes_synthFrom 0 t.params

/-- Witness for C1 at the spec's `Fetcher` scenario (interface `Fetcher` with
the single method `Get(id string) (string, error)`), at method index 0. -/
theorem c1_mock_shape_witness :
    (genMockDeclsSuffix fetcherIface).fields.length = fetcherIface.type.methodsOf.length
    ∧ (genMockDeclsSuffix fetcherIface).meths.length = fetcherIface.type.methodsOf.length
    ∧ (genMockDeclsRegex fetcherIface).fields.length = fetcherIface.type.methodsOf.length
    ∧ (genMockDeclsRegex fetcherIface).meths.length = fetcherIface.type.methodsOf.length
    ∧ (genMockDeclsSuffix fetcherIface).fields[0]?
        = some ⟨["Get" ++ "_"],
                .funcT ⟨[⟨["id"], "string"⟩], [⟨[], "string"⟩, ⟨[], "error"⟩]⟩⟩
    ∧ ((genMockDeclsSuffix fetcherIface).meths[0]?).map MethDecl.name = some "Get"
    ∧ (genMockDeclsRegex fetcherIface).fields[0]?
        = some ⟨["Get" ++ "_"],
                .funcT ⟨synthesizeFieldNamesIfMissing [⟨["id"], "string"⟩],
                        [⟨[], "string"⟩, ⟨[], "error"⟩]⟩⟩
    ∧ ((genMockDeclsRegex fetcherIface).meths[0]?).map MethDecl.name = some "Get"
    ∧ flatParamTypes (synthesizeFieldNamesIfMissing [⟨["id"], "string"⟩])
        = flatParamTypes [⟨["id"], "string"⟩] := by
  have h := c1_mock_shape fetcherIface 0
    ⟨["Get"], .funcT ⟨[⟨["id"], "string"⟩], [⟨[], "string"⟩, ⟨[], "error"⟩]⟩⟩
    ⟨[⟨["id"], "string"⟩], [⟨[], "string"⟩, ⟨[], "error"⟩]⟩
    (by decide) (by decide) rfl
  simpa [MethodField.name0, fetcherIface] using h

/-- C2: in the pattern variant, the delegating method generated for a method
entry has the pointer receiver `(s *Mock<iface>)`, the method's own name, the
method's signature (the synthesized parameter list has the same flattened
parameter types as the declared one, and identical results), and a body that
is a single `return s.<name>_(args)` whose arguments are exactly the method's
flattened parameter names in declared order — one argument per declared
parameter, untransformed. -/
theorem c2_delegating_method (iface : TypeSpec) (i : Nat) (mf : MethodField) (t : FuncT)
    (hall : ∀ mf' ∈ iface.type.methodsOf, mf'.type.isFunc = true)
    (hi : (iface.type.methodsOf)[i]? = some mf)
    (ht : mf.type = .funcT t) :
    (genMockDeclsRegex iface).meths[i]?
      = some
          { recvName := "s"
            recvStar := "Mock" ++ iface.name
            name := mf.name0
            ftype := ⟨synthesizeFieldNamesIfMissing t.params, t.results⟩
            body := ⟨"s", mf.name0 ++ "_",
                     fieldListToIdentList (synthesizeFieldNamesIfMissing t.params)⟩ }
    ∧ flatParamTypes (synthesizeFieldNamesIfMissing t.params) = flatParamTypes t.params
    ∧ (fieldListToIdentList (synthesizeFieldNamesIfMissing t.params)).length
        = (flatParamTypes t.params).length := by
  have hmr := meths_regex_map iface hall
  refine ⟨?_, flatParamTypes_synthFrom 0 t.params, length_identList_synthFrom 0 t.params⟩
  rw [hmr, List.getElem?_map, hi]
  simp [regexMethOf, MethType.funcOf, ht]

/-- Witness for C2 at the `Fetcher` scenario: the generated method is
`func (s *MockFetcher) Get(id string) (string, error) { return s.Get_(id) }`. -/
theorem c2_delegating_method_witness :
    (genMockDeclsRegex fetcherIface).meths[0]?
      = some
          { recvName := "s"
            recvStar := "Mock" ++ "Fetcher"
            name := "Get"
            ftype := ⟨synthesizeFieldNamesIfMissing [⟨["id"], "string"⟩],
                      [⟨[], "string"⟩, ⟨[], "error"⟩]⟩
            body := ⟨"s", "Get" ++ "_",
                     fieldListToIdentList (synthesizeFieldNamesIfMissing [⟨["id"], "string"⟩])⟩ }
    ∧ flatParamTypes (synthesizeFieldNamesIfMissing [⟨["id"], "string"⟩])
        = flatParamTypes [⟨["id"], "string"⟩]
    ∧ (fieldListToIdentList (synthesizeFieldNamesIfMissing [⟨["id"], "string"⟩])).length
        = (flatParamTypes [⟨["id"], "string"⟩]).length := by
  have h := c2_delegating_method fetcherIface 0
    ⟨["Get"], .funcT ⟨[⟨["id"], "string"⟩], [⟨[], "string"⟩, ⟨[], "error"⟩]⟩⟩
    ⟨[⟨["id"], "string"⟩], [⟨[], "string"⟩, ⟨[], "error"⟩]⟩
    (by decide) (by decide) rfl
  simpa [MethodField.name0, fetcherIface] using h

/-- C3: in the pattern variant, an unnamed parameter group at position j is
given the synthesized name `"v" ++ j` (j being its zero-based position among
field groups), and the delegating body forwards it under that name: the body's
argument list is exactly the flattened names of the synthesized parameter
list, which contain `"v" ++ j`. On the spec's `Check(bool) error` scenario,
the generator produces exactly
`func (s *MockChecker) Check(v0 bool) error { return s.Check_(v0) }`. -/
theorem c3_synthesized_names (iface : TypeSpec) (i : Nat) (mf : MethodField)
    (t : FuncT) (j : Nat) (g : PField)
    (hall : ∀ mf' ∈ iface.type.methodsOf, mf'.type.isFunc = true)
    (hi : (iface.type.methodsOf)[i]? = some mf)
    (ht : mf.type = .funcT t)
    (hj : t.params[j]? = some g) (hg : g.names = []) :
    (synthesizeFieldNamesIfMissing t.params)[j]? = some ⟨["v" ++ toString j], g.ptype⟩
    ∧ ((genMockDeclsRegex iface).meths[i]?).map (fun m => m.body.args)
        = some (fieldListToIdentList (synthesizeFieldNamesIfMissing t.params))
    ∧ ("v" ++ toString j) ∈ fieldListToIdentList (synthesizeFieldNamesIfMissing t.params)
    ∧ genMockDeclsRegex checkerIface
        = ⟨"MockChecker",
           [⟨["Check_"], .funcT ⟨[⟨["v0"], "bool"⟩], [⟨[], "error"⟩]⟩⟩],
           [{ recvName := "s"
              recvStar := "MockChecker"
              name := "Check"
              ftype := ⟨[⟨["v0"], "bool"⟩], [⟨[], "error"⟩]⟩
              body := ⟨"s", "Check_", ["v0"]⟩ }]⟩ := by
  have hsyn : (synthesizeFieldNamesIfMissing t.params)[j]?
      = some ⟨["v" ++ toString j], g.ptype⟩ := by
    have h := synthFrom_getElem 0 t.params j g hj hg
    simpa [synthesizeFieldNamesIfMissing, Nat.zero_add] using h
  refine ⟨hsyn, ?_, ?_, ?_⟩
  · have hmr := meths_regex_map iface hall
    rw [hmr, List.getElem?_map, hi]
    simp [regexMethOf, MethType.funcOf, ht]
  · exact mem_identList_of_getElem hsyn (by simp)
  · decide

/-- Witness for C3 at the `Checker` scenario: the unnamed `bool` parameter
(group 0) of `Check(bool) error` is named `v0` and forwarded. -/
theorem c3_synthesized_names_witness :
    (synthesizeFieldNamesIfMissing [⟨[], "bool"⟩])[0]? = some ⟨["v" ++ toString 0], "bool"⟩
    ∧ ((genMockDeclsRegex checkerIface).meths[0]?).map (fun m => m.body.args)
        = some (fieldListToIdentList (synthesizeFieldNamesIfMissing [⟨[], "bool"⟩]))
    ∧ ("v" ++ toString 0) ∈ fieldListToIdentList (synthesizeFieldNamesIfMissing [⟨[], "bool"⟩])
    ∧ genMockDeclsRegex checkerIface
        = ⟨"MockChecker",
           [⟨["Check_"], .funcT ⟨[⟨["v0"], "bool"⟩], [⟨[], "error"⟩]⟩⟩],
           [{ recvName := "s"
              recvStar := "MockChecker"
              name := "Check"
              ftype := ⟨[⟨["v0"], "bool"⟩], [⟨[], "error"⟩]⟩
              body := ⟨"s", "Check_", ["v0"]⟩ }]⟩ :=
  c3_synthesized_names checkerIface 0
    ⟨["Check"], .funcT ⟨[⟨[], "bool"⟩], [⟨[], "error"⟩]⟩⟩
    ⟨[⟨[], "bool"⟩], [⟨[], "error"⟩]⟩ 0 ⟨[], "bool"⟩
    (by decide) (by decide) rfl (by decide) rfl

/-- C4 counterexample: on the `Checker` interface, whose method `Check(bool)
error` has an unnamed parameter, the two variants' generation cores produce
different declaration sets — the pattern variant synthesizes `v0` and forwards
it, the suffix variant leaves the parameter unnamed and forwards nothing. -/
theorem c4_counterexample :
    genMockDeclsRegex checkerIface ≠ genMockDeclsSuffix checkerIface := by
  decide

/-- C4 amended: the two variants' generation cores coincide on every selected
interface in which each method parameter group declares at least one name. -/
theorem c4_variants_agree_when_named (iface : TypeSpec)
    (hnamed : ∀ mf ∈ iface.type.methodsOf, ∀ g ∈ mf.type.funcOf.params, g.names ≠ []) :
    genMockDeclsRegex iface = genMockDeclsSuffix iface := by
  have hfields : (genMockDeclsRegex iface).fields = (genMockDeclsSuffix iface).fields := by
    apply filterMap_congr_mem
    intro a ha
    cases hat : a.type with
    | funcT t =>
      obtain ⟨tps, trs⟩ := t
      have hg : ∀ g ∈ tps, g.names ≠ [] := by
        have hx := hnamed a ha
        rw [hat] at hx
        simpa [MethType.funcOf] using hx
      have hsyn : synthesizeFieldNamesIfMissing tps = tps :=
        synthFrom_id_of_named 0 tps hg
      simp [hat, hsyn, synthesizeFieldNamesIfMissing] at *
      simp [hsyn]
    | otherT s => simp [hat]
  have hmeths : (genMockDeclsRegex iface).meths = (genMockDeclsSuffix iface).meths := by
    apply filterMap_congr_mem
    intro a ha
    cases hat : a.type with
    | funcT t =>
      obtain ⟨tps, trs⟩ := t
      have hg : ∀ g ∈ tps, g.names ≠ [] := by
        have hx := hnamed a ha
        rw [hat] at hx
        simpa [MethType.funcOf] using hx
      have hsyn : synthesizeFieldNamesIfMissing tps = tps :=
        synthFrom_id_of_named 0 tps hg
      simp [hat, hsyn, synthesizeFieldNamesIfMissing] at *
      simp [hsyn]
    | otherT s => simp [hat]
  have heta1 : genMockDeclsRegex iface
      = ⟨(genMockDeclsRegex iface).typeName, (genMockDeclsRegex iface).fields,
         (genMockDeclsRegex iface).meths⟩ := rfl
  have heta2 : genMockDeclsSuffix iface
      = ⟨(genMockDeclsSuffix iface).typeName, (genMockDeclsSuffix iface).fields,
         (genMockDeclsSuffix iface).meths⟩ := rfl
  rw [heta1, heta2, hfields, hmeths]
  rfl

/-- Witness for the amended C4 at the all-named `Fetcher` interface. -/
theorem c4_variants_agree_when_named_witness :
    genMockDeclsRegex fetcherIface = genMockDeclsSuffix fetcherIface :=
  c4_variants_agree_when_named fetcherIface (by decide)

/-- C5 counterexample: on an interface whose single method-list entry is an
embedded (non-function-typed) interface, generation neither fails nor surfaces
an error — the run completes with result `true`, emitting a mock with zero
fields and zero methods. -/
theorem c5_counterexample :
    writeMockImplFilesM false allOk "out" "svc" [embIface]
      = ([Event.mkdir "out" true, Event.logLine "# out/emb_mock.go",
          Event.stdoutWrite ⟨"svc", ⟨"MockEmbService", [], []⟩⟩ true], true) := by
  decide

/-- C5 amended: a method-list entry whose type is not a function type is
silently skipped — the field and method counts equal the number of
function-typed entries only, and a single-interface pass completes without
error on an all-success oracle regardless of the entries' types. -/
theorem c5_skips_nonfunc (spec : TypeSpec) (wf : Bool) (outDir outPkg : String) :
    (writeMockImplFilesM wf allOk outDir outPkg [spec]).2 = true
    ∧ (genMockDeclsRegex spec).fields.length
        = (spec.type.methodsOf.filter (fun mf => mf.type.isFunc)).length
    ∧ (genMockDeclsRegex spec).meths.length
        = (spec.type.methodsOf.filter (fun mf => mf.type.isFunc)).length := by
  refine ⟨?_, ?_, ?_⟩
  · simpa [writeMockImplFilesM, allOk] using wmifLoop_allOk_ok wf outDir outPkg 0 [spec]
  · apply length_filterMap_eq_length_filter
    intro a
    cases hat : a.type <;> simp [hat, MethType.isFunc]
  · apply length_filterMap_eq_length_filter
    intro a
    cases hat : a.type <;> simp [hat, MethType.isFunc]

/-- C6: when a package's selection comes back empty, the main loop logs the
warning, produces no output events for that package, and continues with the
remaining packages unchanged. -/
theorem c6_warn_and_continue (pat : String → Bool) (patStr : String) (wf : Bool)
    (oracles : Nat → FsOracle) (outDir : String) (k : Nat) (pkg : PkgM)
    (rest : List PkgM) (h : readIfacesM pat pkg.files = []) :
    mainLoopM pat patStr wf oracles outDir k (pkg :: rest)
      = Event.warnNoMatch patStr :: mainLoopM pat patStr wf oracles outDir (k + 1) rest := by
  simp [mainLoopM, h]

/-- Witness for C6: a two-package scan in which the first package has no
interface matching the `"Service"` predicate warns and proceeds to the
second. -/
theorem c6_warn_and_continue_witness :
    mainLoopM patService ".+Service" false (fun _ => allOk) "out" 0 [pkgNoMatch, pkgWithMatch]
      = Event.warnNoMatch ".+Service"
          :: mainLoopM patService ".+Service" false (fun _ => allOk) "out" 1 [pkgWithMatch] :=
  c6_warn_and_continue patService ".+Service" false (fun _ => allOk) "out" 0
    pkgNoMatch [pkgWithMatch] (by decide)

/-- C7 counterexample: with an oracle on which the byte write of the first
output file fails, a write-mode pass over two interfaces still reports
success and still processes the second interface — the `w.Write` failure is
silently swallowed, refuting fail-fast propagation of every output-path
failure. -/
theorem c7_counterexample :
    (writeMockImplFilesM true oWriteFail "out" "svc" [fetcherIface, pusherIface]).2 = true
    ∧ Event.fileWrite "out/fetcher_mock.go" ⟨"svc", genMockDeclsRegex fetcherIface⟩ false
        ∈ (writeMockImplFilesM true oWriteFail "out" "svc" [fetcherIface, pusherIface]).1
    ∧ Event.fileWrite "out/push_mock.go" ⟨"svc", genMockDeclsRegex pusherIface⟩ true
        ∈ (writeMockImplFilesM true oWriteFail "out" "svc" [fetcherIface, pusherIface]).1 := by
  decide

/-- C7 amended: the failures the code does check — directory creation, output
file creation, rendering, import processing — are propagated: a write-mode
pass that reports success had all of them succeed for every processed
interface. (The result of the final byte-write call is ignored by the code,
so it does not appear here; the counterexample shows it swallowed.) -/
theorem c7_fail_fast_except_write (o : FsOracle) (outDir outPkg : String)
    (ifaces : List TypeSpec) (i : Nat)
    (hs : (writeMockImplFilesM true o outDir outPkg ifaces).2 = true)
    (hi : i < ifaces.length) :
    o.mkdirOk = true ∧ o.createOk i = true ∧ o.printOk i = true
    ∧ o.importsOk i = true := by
  by_cases hm : o.mkdirOk = true
  · have hloop : (wmifLoop true o outDir outPkg 0 ifaces).2 = true := by
      simpa [writeMockImplFilesM, hm] using hs
    have h := wmifLoop_ok_of_success o outDir outPkg ifaces 0 hloop i hi
    rw [Nat.zero_add] at h
    exact ⟨hm, h⟩
  · exfalso
    have hm' : o.mkdirOk = false := by simpa using hm
    rw [writeMockImplFilesM] at hs
    simp [hm'] at hs

/-- Witness for the amended C7: a successful single-interface write-mode run
on the all-success oracle indeed had its modelled fallible operations
succeed. -/
theorem c7_fail_fast_except_write_witness :
    allOk.mkdirOk = true ∧ allOk.createOk 0 = true ∧ allOk.printOk 0 = true
    ∧ allOk.importsOk 0 = true :=
  c7_fail_fast_except_write allOk "out" "svc" [pusherIface] 0 (by decide) (by decide)

/-- C8 counterexample: a matching interface type declaration nested inside a
function body IS collected by the selector — the walk's visitor returns
"descend" on every node that is not a `GenDecl`, including function
declarations and the statements of their bodies. -/
theorem c8_counterexample :
    readIfacesM patService
        [[Node.funcDecl [Node.genDecl true [⟨"FooService", .interfaceType [], "a.go"⟩]]]]
      = [⟨"FooService", .interfaceType [], "a.go"⟩] := by
  decide

/-- C8 amended: the selector collects matching interface type declarations
wherever the walk reaches them — a type declaration at any nesting depth
inside function bodies is collected exactly like a top-level one (descent is
cut off only at `GenDecl` nodes themselves). -/
theorem c8_collects_nested (pat : String → Bool) (d : Nat) (specs : List TypeSpec) :
    readIfacesM pat [[nestFunc d specs]]
      = specs.filter (fun ts => ts.type.isInterface && pat ts.name) := by
  simp [readIfacesM, collectIfacesList, collectIfaces_nestFunc]

/-- C9 counterexample: in a preview run over the `Checker` interface, the
standard output stream receives only the rendered file unit, while the
`# <path>` line is emitted on the log stream (standard error) — and it is also
emitted there in write mode. The claim's "content printed to standard output
prefixed by a `# <path>` comment line" fails: the prefix never reaches
standard output. -/
theorem c9_counterexample :
    ((writeMockImplFilesM false allOk "out" "svc" [checkerIface]).1.filter Event.isStdout
        = [Event.stdoutWrite ⟨"svc", genMockDeclsRegex checkerIface⟩ true])
    ∧ ((writeMockImplFilesM false allOk "out" "svc" [checkerIface]).1.filter Event.isLog
        = [Event.logLine "# out/check_mock.go"])
    ∧ ((writeMockImplFilesM true allOk "out" "svc" [checkerIface]).1.filter Event.isLog
        = [Event.logLine "# out/check_mock.go"]) := by
  decide

/-- C9 amended: when `-w` is absent, each generated file unit is written to
standard output and the `# <path>` line naming the would-be output path goes
to the log stream (standard error); no file other than the output directory is
touched — files on disk are written only in write mode. -/
theorem c9_preview_streams (o : FsOracle) (outDir outPkg : String)
    (ifaces : List TypeSpec) (hm : o.mkdirOk = true)
    (hp : ∀ i, o.printOk i = true) (hq : ∀ i, o.importsOk i = true) :
    writeMockImplFilesM false o outDir outPkg ifaces
      = (Event.mkdir outDir true :: previewEvents o outDir outPkg 0 ifaces, true)
    ∧ (writeMockImplFilesM false o outDir outPkg ifaces).1.filter Event.isFileEvent = [] := by
  constructor
  · simp [writeMockImplFilesM, hm, wmifLoop_preview o outDir outPkg hp hq 0 ifaces]
  · have h := wmifLoop_preview_no_file_events o outDir outPkg 0 ifaces
    simp [writeMockImplFilesM, hm, List.filter_cons, Event.isFileEvent, h]

/-- Witness for the amended C9 at a one-interface preview run. -/
theorem c9_preview_streams_witness :
    writeMockImplFilesM false allOk "o" "p" [fetcherIface]
      = (Event.mkdir "o" true :: previewEvents allOk "o" "p" 0 [fetcherIface], true)
    ∧ (writeMockImplFilesM false allOk "o" "p" [fetcherIface]).1.filter Event.isFileEvent = [] :=
  c9_preview_streams allOk "o" "p" [fetcherIface] rfl (fun _ => rfl) (fun _ => rfl)

/-- C10: `MkdirAll` on the output directory is always the first effect of a
generation pass, in both modes — its event heads every trace — and a preview
run touches no file beyond that directory creation. -/
theorem c10_mkdir_unconditional (wf : Bool) (o : FsOracle) (outDir outPkg : String)
    (ifaces : List TypeSpec) :
    ((writeMockImplFilesM wf o outDir outPkg ifaces).1.head?
        = some (Event.mkdir outDir o.mkdirOk))
    ∧ ((writeMockImplFilesM false o outDir outPkg ifaces).1.filter Event.isFileEvent = []) := by
  constructor
  · by_cases hm : o.mkdirOk = true
    · simp [writeMockImplFilesM, hm]
    · have hm' : o.mkdirOk = false := by simpa using hm
      simp [writeMockImplFilesM, hm']
  · by_cases hm : o.mkdirOk = true
    · have h := wmifLoop_preview_no_file_events o outDir outPkg 0 ifaces
      simp [writeMockImplFilesM, hm, List.filter_cons, Event.isFileEvent, h]
    · have hm' : o.mkdirOk = false := by simpa using hm
      simp [writeMockImplFilesM, hm', Event.isFileEvent]

end GenMocks
